import Mathlib

/-!
# Verification of the cs2-rcon-console bridging core

A shallow embedding of the RCON packet codec, the TCP stream reassembly
loop, the pending-request correlation logic, the A2S query state machine,
the log-line classifier and the UDP log receiver of the repository,
together with theorems settling the specification's claims about them.

Buffers are modelled as `List Nat` with every entry below 256 (a Node
`Buffer` is a byte array).  JavaScript strings are modelled as Lean
`String`s; the Node `ascii` codec masks each UTF-16 code unit with 0xFF
when encoding and each byte with 0x7F when decoding, and both masks are
carried over literally.
-/

namespace Cs2Rcon

/-- Encode a string to bytes the way `Buffer.from(s, "ascii")` does:
each UTF-16 code unit is reduced modulo 256 (Node's `ascii` encoding is
`latin1` on the encoding side; no error is ever raised). -/
def bufferFromAscii (s : String) : List Nat :=
  s.data.map (fun c => c.toNat % 256)

/-- Decode bytes to a string the way `buf.toString("ascii")` does: the
high bit of every byte is stripped before it becomes a character. -/
def bufferToAscii (l : List Nat) : String :=
  String.mk (l.map (fun b => Char.ofNat (b % 256 % 128)))

/-- The byte at index `i` of a buffer (buffers are byte lists; out of
range reads yield 0 in the model — Node would throw, and no claim
exercises that path). -/
def byteAt (buf : List Nat) (i : Nat) : Nat :=
  buf.getD i 0

/-- `buf.writeInt32LE(v)`: the four little-endian bytes of `v` two's
complement. -/
def writeInt32LE (v : Int) : List Nat :=
  let u := (v % (2 ^ 32 : Int)).toNat
  [u % 256, u / 256 % 256, u / 65536 % 256, u / 16777216 % 256]

/-- `buf.readInt32LE(off)`: reassemble four little-endian bytes and
re-interpret the 32-bit value as a signed integer. -/
def readInt32LE (buf : List Nat) (off : Nat) : Int :=
  let u := byteAt buf off + 256 * byteAt buf (off + 1) +
      65536 * byteAt buf (off + 2) + 16777216 * byteAt buf (off + 3)
  if u < 2 ^ 31 then (u : Int) else (u : Int) - 2 ^ 32

/-- `buf.toString("ascii", s, e)` slice bounds: Node clamps both ends to
`[0, length]`. -/
def asciiSlice (l : List Nat) (s e : Int) : String :=
  let n := (l.length : Int)
  let s' := (min (max s 0) n).toNat
  let e' := (min (max e 0) n).toNat
  bufferToAscii ((l.drop s').take (e' - s'))

/-- `buf.subarray(start)`: a negative start counts from the end, and both
cases clamp to the buffer. -/
def subarrayFrom (l : List Nat) (start : Int) : List Nat :=
  let n := (l.length : Int)
  let s := if start < 0 then max (n + start) 0 else min start n
  l.drop s.toNat

/-- Source RCON packet types (`PacketType` in the source). -/
def PacketType.AUTH : Int := 3
def PacketType.AUTH_RESPONSE : Int := 2
def PacketType.EXEC_COMMAND : Int := 2
def PacketType.RESPONSE_VALUE : Int := 0

/-- A decoded RCON packet (`RconPacket` in the source). -/
structure RconPacket where
  size : Int
  id : Int
  type : Int
  body : String
  totalLength : Int
  deriving DecidableEq, Repr

/-- `RconClient.encodePacket(type, body)`: increments the client's
`requestId`, builds `size|id|type|body|0|0` with little-endian 32-bit
fields, `size = 4 + 4 + |body bytes| + 1 + 1`.  Takes the current
`requestId` explicitly and returns the updated one (state passing). -/
def encodePacket (requestId : Nat) (type : Nat) (body : String) :
    Nat × List Nat :=
  let id := requestId + 1
  let bodyBuffer := bufferFromAscii body
  let size := 4 + 4 + bodyBuffer.length + 1 + 1
  let packet := writeInt32LE (size : Int) ++ writeInt32LE (id : Int) ++
      writeInt32LE (type : Int) ++ bodyBuffer ++ [0, 0]
  (id, packet)

/-- `RconClient.decodePacket(buffer)`: `none` when fewer than 4 bytes are
buffered, or fewer than `size + 4` once the size field is readable;
otherwise the decoded packet, whose body is the ascii decoding of bytes
`12 .. 12 + size - 10`. -/
def decodePacket (buffer : List Nat) : Option RconPacket :=
  if buffer.length < 4 then none
  else
    let size := readInt32LE buffer 0
    let totalLength := size + 4
    if (buffer.length : Int) < totalLength then none
    else
      let id := readInt32LE buffer 4
      let type := readInt32LE buffer 8
      let body := asciiSlice buffer 12 (12 + size - 10)
      some { size := size, id := id, type := type, body := body,
             totalLength := totalLength }


/-! ## Codec lemmas -/

theorem writeInt32LE_length (v : Int) : (writeInt32LE v).length = 4 := rfl

theorem byteAt_append_right (l rest : List Nat) (j : Nat) :
    byteAt (l ++ rest) (l.length + j) = byteAt rest j := by
  simp only [byteAt]
  rw [List.getD_append_right _ _ _ _ (Nat.le_add_right _ _), Nat.add_sub_cancel_left]

theorem readInt32LE_append_right (l rest : List Nat) (k : Nat) :
    readInt32LE (l ++ rest) (l.length + k) = readInt32LE rest k := by
  simp only [readInt32LE]
  rw [show l.length + k + 1 = l.length + (k + 1) by omega,
    show l.length + k + 2 = l.length + (k + 2) by omega,
    show l.length + k + 3 = l.length + (k + 3) by omega,
    byteAt_append_right, byteAt_append_right, byteAt_append_right, byteAt_append_right]

theorem readInt32LE_write_append (v : Nat) (rest : List Nat) (hv : v < 2 ^ 31) :
    readInt32LE (writeInt32LE (v : Int) ++ rest) 0 = (v : Int) := by
  have h32 : ((2 : Int) ^ 32) = 4294967296 := by norm_num
  have h1 : ((v : Int) % (2 ^ 32 : Int)).toNat = v := by
    rw [h32]; omega
  simp only [writeInt32LE, h1, readInt32LE, byteAt, List.cons_append, List.nil_append,
    List.getD_cons_zero, List.getD_cons_succ]
  have hu : v % 256 + 256 * (v / 256 % 256) + 65536 * (v / 65536 % 256) +
      16777216 * (v / 16777216 % 256) = v := by omega
  rw [hu]
  simp only [if_pos hv]


theorem bufferFromAscii_length (body : String) :
    (bufferFromAscii body).length = body.length := by
  simp [bufferFromAscii]

theorem bufferToAscii_bufferFromAscii (body : String)
    (hb : ∀ c ∈ body.data, c.toNat < 128) :
    bufferToAscii (bufferFromAscii body) = body := by
  obtain ⟨data⟩ := body
  simp only [bufferToAscii, bufferFromAscii, List.map_map]
  refine congrArg String.mk ?_
  conv_rhs => rw [← List.map_id data]
  refine List.map_congr_left fun c hc => ?_
  have h := hb c hc
  simp only [Function.comp_apply, id_eq]
  rw [show c.toNat % 256 % 256 % 128 = c.toNat by omega, Char.ofNat_toNat]

theorem asciiSlice_eq (l : List Nat) (si ei : Int)
    (hsl : si ≤ (l.length : Int)) (hel : ei ≤ (l.length : Int)) :
    asciiSlice l si ei = bufferToAscii ((l.drop si.toNat).take (ei.toNat - si.toNat)) := by
  simp only [asciiSlice]
  rw [show (min (max si 0) (l.length : Int)).toNat = si.toNat by omega,
    show (min (max ei 0) (l.length : Int)).toNat = ei.toNat by omega]

/-- Decoding a buffer that starts with one complete well-formed packet
succeeds, whatever bytes trail it, and reports `totalLength = size + 4`. -/
theorem decodePacket_concat (sz id ty : Nat) (bb rest : List Nat)
    (hsz : sz = 10 + bb.length)
    (hszb : sz < 2 ^ 31) (hid : id < 2 ^ 31) (hty : ty < 2 ^ 31) :
    decodePacket (writeInt32LE (sz : Int) ++ (writeInt32LE (id : Int) ++
        (writeInt32LE (ty : Int) ++ (bb ++ ([0, 0] ++ rest))))) =
      some { size := (sz : Int), id := (id : Int), type := (ty : Int),
             body := bufferToAscii bb, totalLength := (sz : Int) + 4 } := by
  set big := writeInt32LE (sz : Int) ++ (writeInt32LE (id : Int) ++
      (writeInt32LE (ty : Int) ++ (bb ++ ([0, 0] ++ rest)))) with hbig
  have hlen : big.length = 14 + bb.length + rest.length := by
    simp [hbig, writeInt32LE_length]
    omega
  have hs0 : readInt32LE big 0 = (sz : Int) :=
    readInt32LE_write_append sz _ hszb
  have hs4 : readInt32LE big 4 = (id : Int) := by
    have h := readInt32LE_append_right (writeInt32LE (sz : Int))
      (writeInt32LE (id : Int) ++ (writeInt32LE (ty : Int) ++ (bb ++ ([0, 0] ++ rest)))) 0
    rw [writeInt32LE_length] at h
    rw [show (4 : Nat) + 0 = 4 from rfl] at h
    exact h.trans (readInt32LE_write_append id _ hid)
  have hs8 : readInt32LE big 8 = (ty : Int) := by
    have h := readInt32LE_append_right (writeInt32LE (sz : Int))
      (writeInt32LE (id : Int) ++ (writeInt32LE (ty : Int) ++ (bb ++ ([0, 0] ++ rest)))) 4
    rw [writeInt32LE_length, show (4 : Nat) + 4 = 8 from rfl] at h
    have h2 := readInt32LE_append_right (writeInt32LE (id : Int))
      (writeInt32LE (ty : Int) ++ (bb ++ ([0, 0] ++ rest))) 0
    rw [writeInt32LE_length, show (4 : Nat) + 0 = 4 from rfl] at h2
    exact h.trans (h2.trans (readInt32LE_write_append ty _ hty))
  have hdrop12 : big.drop 12 = bb ++ ([0, 0] ++ rest) := by
    rw [hbig, show writeInt32LE (sz : Int) ++ (writeInt32LE (id : Int) ++
        (writeInt32LE (ty : Int) ++ (bb ++ ([0, 0] ++ rest)))) =
        (writeInt32LE (sz : Int) ++ writeInt32LE (id : Int) ++ writeInt32LE (ty : Int)) ++
          (bb ++ ([0, 0] ++ rest)) by simp [List.append_assoc]]
    exact List.drop_left' (by simp [writeInt32LE_length])
  have hslice : asciiSlice big 12 (12 + (sz : Int) - 10) = bufferToAscii bb := by
    rw [asciiSlice_eq big 12 (12 + (sz : Int) - 10) (by omega) (by omega)]
    rw [show ((12 : Int)).toNat = 12 from rfl,
      show (12 + (sz : Int) - 10).toNat = 12 + bb.length by omega, hdrop12,
      show 12 + bb.length - 12 = bb.length by omega, List.take_left' rfl]
  simp only [decodePacket]
  rw [if_neg (by omega : ¬ big.length < 4), hs0,
    if_neg (by omega : ¬ (big.length : Int) < (sz : Int) + 4),
    hs4, hs8, hslice]


theorem byteAt_take (l : List Nat) (k i : Nat) (h : i < k) :
    byteAt (l.take k) i = byteAt l i := by
  simp only [byteAt, List.getD, List.get?_eq_getElem?, List.getElem?_take_of_lt h]

theorem readInt32LE_take (l : List Nat) (k off : Nat) (h : off + 3 < k) :
    readInt32LE (l.take k) off = readInt32LE l off := by
  simp only [readInt32LE]
  rw [byteAt_take _ _ _ (by omega), byteAt_take _ _ _ (by omega),
    byteAt_take _ _ _ (by omega), byteAt_take _ _ _ (by omega)]

/-- The encoded packet, re-associated into its wire fields with an
arbitrary trailing buffer. -/
theorem encodePacket_append_shape (s t : Nat) (body : String) (rest : List Nat) :
    (encodePacket s t body).2 ++ rest =
      writeInt32LE ((10 + body.length : Nat) : Int) ++ (writeInt32LE ((s + 1 : Nat) : Int) ++
        (writeInt32LE ((t : Nat) : Int) ++ (bufferFromAscii body ++ ([0, 0] ++ rest)))) := by
  have hbl := bufferFromAscii_length body
  simp only [encodePacket]
  rw [show 4 + 4 + (bufferFromAscii body).length + 1 + 1 = 10 + body.length by omega]
  simp [List.append_assoc]

theorem encodePacket_length (s t : Nat) (body : String) :
    ((encodePacket s t body).2).length = 14 + body.length := by
  have hbl := bufferFromAscii_length body
  simp only [encodePacket, List.length_append, writeInt32LE_length, List.length_cons,
    List.length_nil]
  omega

theorem encodePacket_size_field (s t : Nat) (body : String)
    (hlen : body.length + 10 < 2 ^ 31) :
    readInt32LE (encodePacket s t body).2 0 = ((10 + body.length : Nat) : Int) := by
  rw [← List.append_nil (encodePacket s t body).2, encodePacket_append_shape]
  exact readInt32LE_write_append (10 + body.length) _ (by omega)

/-! ## C1 — encode/decode round-trip -/

/-- C1: for every ASCII body, every packet type and any prior value of the
request counter, decoding the bytes produced by `encodePacket` yields a
packet whose id, type and body equal the encoded ones, and the encoded
size field equals `4 + 4 + length(body) + 2`. -/
theorem C1_encode_decode_roundtrip (s t : Nat) (body : String)
    (hb : ∀ c ∈ body.data, c.toNat < 128)
    (hlen : body.length + 10 < 2 ^ 31) (hid : s + 1 < 2 ^ 31) (ht : t < 2 ^ 31) :
    decodePacket (encodePacket s t body).2 =
      some { size := ((10 + body.length : Nat) : Int), id := ((s + 1 : Nat) : Int),
             type := ((t : Nat) : Int), body := body,
             totalLength := ((10 + body.length : Nat) : Int) + 4 } ∧
    readInt32LE (encodePacket s t body).2 0 = ((4 + 4 + body.length + 2 : Nat) : Int) := by
  have hbl := bufferFromAscii_length body
  constructor
  · rw [← List.append_nil (encodePacket s t body).2, encodePacket_append_shape]
    have hkey := decodePacket_concat (10 + body.length) (s + 1) t (bufferFromAscii body) []
      (by omega) (by omega) hid ht
    rw [bufferToAscii_bufferFromAscii body hb] at hkey
    exact hkey
  · rw [encodePacket_size_field s t body hlen]
    omega

theorem C1_encode_decode_roundtrip_witness :
    decodePacket (encodePacket 0 3 "pw").2 =
      some { size := ((10 + "pw".length : Nat) : Int), id := ((0 + 1 : Nat) : Int),
             type := ((3 : Nat) : Int), body := "pw",
             totalLength := ((10 + "pw".length : Nat) : Int) + 4 } ∧
    readInt32LE (encodePacket 0 3 "pw").2 0 = ((4 + 4 + "pw".length + 2 : Nat) : Int) :=
  C1_encode_decode_roundtrip 0 3 "pw" (by decide) (by decide) (by decide) (by decide)

/-! ## C5 — non-ASCII bodies -/

/-- C5 counterexample: encoding the non-ASCII body `"é"` (code unit 233)
does not fail — it produces a complete 15-byte packet, which even decodes
back to the silently mangled body `"i"` (233 masked to 0xE9, then the
high bit stripped on decode).  No encoding failure exists in the code. -/
theorem C5_counterexample :
    decodePacket (encodePacket 0 2 "é").2 =
      some { size := 11, id := 1, type := 2, body := "i", totalLength := 15 } := by
  decide

/-- C5 (amended): packet encoding never fails.  Every body, ASCII or not,
is encoded: the packet always has `14 + length(body)` bytes, and bytes
12 onward are the UTF-16 code units of the body silently masked modulo
256 (Node `latin1` behaviour), followed by the two NUL terminators. -/
theorem C5_encode_never_fails (s t : Nat) (body : String) :
    ((encodePacket s t body).2).length = 14 + body.length ∧
    ((encodePacket s t body).2).drop 12 =
      body.data.map (fun c => c.toNat % 256) ++ [0, 0] := by
  refine ⟨encodePacket_length s t body, ?_⟩
  rw [← List.append_nil (encodePacket s t body).2, encodePacket_append_shape]
  rw [show writeInt32LE ((10 + body.length : Nat) : Int) ++ (writeInt32LE ((s + 1 : Nat) : Int) ++
      (writeInt32LE ((t : Nat) : Int) ++ (bufferFromAscii body ++ ([0, 0] ++ [])))) =
      (writeInt32LE ((10 + body.length : Nat) : Int) ++ writeInt32LE ((s + 1 : Nat) : Int) ++
        writeInt32LE ((t : Nat) : Int)) ++ (bufferFromAscii body ++ ([0, 0] ++ [])) by
    simp [List.append_assoc]]
  rw [List.drop_left' (by simp [writeInt32LE_length])]
  simp [bufferFromAscii]

/-! ## C4 — incompleteness is not an error; incremental reassembly -/

/-- C4: `decodePacket` returns `none` (Incomplete) whenever the buffer
holds fewer than 4 bytes, or fewer than `size + 4` bytes once the size
field is readable; every proper prefix of a complete encoded packet
decodes to `none`, and the complete packet decodes successfully. -/
theorem C4_decode_incremental (s t : Nat) (body : String)
    (hlen : body.length + 10 < 2 ^ 31) (hid : s + 1 < 2 ^ 31) (ht : t < 2 ^ 31) :
    (∀ buf : List Nat, buf.length < 4 → decodePacket buf = none) ∧
    (∀ buf : List Nat, 4 ≤ buf.length → (buf.length : Int) < readInt32LE buf 0 + 4 →
      decodePacket buf = none) ∧
    (∀ k < ((encodePacket s t body).2).length,
      decodePacket (((encodePacket s t body).2).take k) = none) ∧
    (decodePacket (encodePacket s t body).2).isSome = true := by
  have hPlen := encodePacket_length s t body
  refine ⟨?_, ?_, ?_, ?_⟩
  · intro buf h
    simp [decodePacket, h]
  · intro buf h4 hlt
    simp only [decodePacket]
    rw [if_neg (by omega), if_pos hlt]
  · intro k hk
    by_cases hk4 : k < 4
    · have hlt : (((encodePacket s t body).2).take k).length < 4 := by
        simp only [List.length_take]
        omega
      simp only [decodePacket]
      rw [if_pos hlt]
    · have hr0 : readInt32LE (((encodePacket s t body).2).take k) 0 =
          ((10 + body.length : Nat) : Int) :=
        (readInt32LE_take _ k 0 (by omega)).trans (encodePacket_size_field s t body hlen)
      simp only [decodePacket]
      rw [List.length_take, min_eq_left (le_of_lt hk), if_neg (by omega), hr0,
        if_pos (by rw [hPlen] at hk; push_cast; omega)]
  · rw [← List.append_nil (encodePacket s t body).2, encodePacket_append_shape]
    rw [decodePacket_concat (10 + body.length) (s + 1) t (bufferFromAscii body) []
      (by have := bufferFromAscii_length body; omega) (by omega) hid ht]
    rfl

theorem C4_decode_incremental_witness :
    decodePacket [255, 255, 255] = none ∧
    decodePacket (((encodePacket 0 2 "st").2).take 9) = none ∧
    (decodePacket (encodePacket 0 2 "st").2).isSome = true := by
  have h := C4_decode_incremental 0 2 "st" (by decide) (by decide) (by decide)
  exact ⟨h.1 [255, 255, 255] (by decide), h.2.2.1 9 (by decide), h.2.2.2⟩


/-! ## C3 — TCP stream reassembly -/

/-- One run of `RconClient.handleData`'s `while` loop: decode, consume
`totalLength` bytes via `subarray`, dispatch, repeat until `Incomplete`.
The loop is modelled with explicit fuel (each successful decode of a
well-formed packet strictly shortens the buffer, so any fuel of at least
one plus the number of buffered packets is enough).  Returns the decoded
packets in dispatch order together with the final buffer. -/
def drainBuffer : Nat → List Nat → List RconPacket × List Nat
  | 0, buf => ([], buf)
  | fuel + 1, buf =>
    match decodePacket buf with
    | none => ([], buf)
    | some packet =>
      let next := drainBuffer fuel (subarrayFrom buf packet.totalLength)
      (packet :: next.1, next.2)

/-- `RconClient.handleData(data)`: append the chunk to the internal
buffer, then repeatedly decode and dispatch. -/
def handleData (responseBuffer data : List Nat) (fuel : Nat) :
    List RconPacket × List Nat :=
  drainBuffer fuel (responseBuffer ++ data)

theorem drainBuffer_step (fuel : Nat) (buf : List Nat) (p : RconPacket)
    (h : decodePacket buf = some p) :
    drainBuffer (fuel + 1) buf =
      ((p :: (drainBuffer fuel (subarrayFrom buf p.totalLength)).1,
        (drainBuffer fuel (subarrayFrom buf p.totalLength)).2)) := by
  simp [drainBuffer, h]

theorem drainBuffer_stop (fuel : Nat) (buf : List Nat)
    (h : decodePacket buf = none) :
    drainBuffer fuel buf = ([], buf) := by
  cases fuel <;> simp [drainBuffer, h]

theorem subarrayFrom_natCast (l : List Nat) (k : Nat) :
    subarrayFrom l (k : Int) = l.drop k := by
  simp only [subarrayFrom]
  rw [if_neg (by omega), show (min (k : Int) (l.length : Int)).toNat = min k l.length by omega]
  rcases le_total k l.length with h | h
  · rw [min_eq_left h]
  · rw [min_eq_right h, List.drop_eq_nil_of_le h, List.drop_eq_nil_of_le (le_refl _)]

/-- C3: two concatenated well-formed packets delivered in one TCP read
are dispatched as exactly two packets, in buffer order, the first decode
consuming exactly `size + 4` bytes (the whole first packet) before the
second decode; nothing is left in the buffer. -/
theorem C3_multi_packet_stream (fuel s1 s2 t1 t2 : Nat) (b1 b2 : String)
    (hb1 : ∀ c ∈ b1.data, c.toNat < 128) (hb2 : ∀ c ∈ b2.data, c.toNat < 128)
    (hl1 : b1.length + 10 < 2 ^ 31) (hl2 : b2.length + 10 < 2 ^ 31)
    (hi1 : s1 + 1 < 2 ^ 31) (hi2 : s2 + 1 < 2 ^ 31)
    (ht1 : t1 < 2 ^ 31) (ht2 : t2 < 2 ^ 31) :
    handleData [] ((encodePacket s1 t1 b1).2 ++ (encodePacket s2 t2 b2).2) (fuel + 3) =
      ([{ size := ((10 + b1.length : Nat) : Int), id := ((s1 + 1 : Nat) : Int),
          type := ((t1 : Nat) : Int), body := b1,
          totalLength := ((10 + b1.length : Nat) : Int) + 4 },
        { size := ((10 + b2.length : Nat) : Int), id := ((s2 + 1 : Nat) : Int),
          type := ((t2 : Nat) : Int), body := b2,
          totalLength := ((10 + b2.length : Nat) : Int) + 4 }], []) ∧
    (((encodePacket s1 t1 b1).2).length : Int) = ((10 + b1.length : Nat) : Int) + 4 := by
  have hbl1 := bufferFromAscii_length b1
  have hbl2 := bufferFromAscii_length b2
  have hPlen1 := encodePacket_length s1 t1 b1
  have hPlen2 := encodePacket_length s2 t2 b2
  have hdec1 : decodePacket ((encodePacket s1 t1 b1).2 ++ (encodePacket s2 t2 b2).2) =
      some { size := ((10 + b1.length : Nat) : Int), id := ((s1 + 1 : Nat) : Int),
             type := ((t1 : Nat) : Int), body := b1,
             totalLength := ((10 + b1.length : Nat) : Int) + 4 } := by
    rw [encodePacket_append_shape]
    have h := decodePacket_concat (10 + b1.length) (s1 + 1) t1 (bufferFromAscii b1)
      (encodePacket s2 t2 b2).2 (by omega) (by omega) hi1 ht1
    rw [bufferToAscii_bufferFromAscii b1 hb1] at h
    exact h
  have hdec2 : decodePacket (encodePacket s2 t2 b2).2 =
      some { size := ((10 + b2.length : Nat) : Int), id := ((s2 + 1 : Nat) : Int),
             type := ((t2 : Nat) : Int), body := b2,
             totalLength := ((10 + b2.length : Nat) : Int) + 4 } := by
    rw [← List.append_nil (encodePacket s2 t2 b2).2, encodePacket_append_shape]
    have h := decodePacket_concat (10 + b2.length) (s2 + 1) t2 (bufferFromAscii b2) []
      (by omega) (by omega) hi2 ht2
    rw [bufferToAscii_bufferFromAscii b2 hb2] at h
    exact h
  have hsub1 : subarrayFrom ((encodePacket s1 t1 b1).2 ++ (encodePacket s2 t2 b2).2)
      (((10 + b1.length : Nat) : Int) + 4) = (encodePacket s2 t2 b2).2 := by
    rw [show ((10 + b1.length : Nat) : Int) + 4 = ((14 + b1.length : Nat) : Int) by push_cast; ring]
    rw [subarrayFrom_natCast, List.drop_left' hPlen1]
  have hsub2 : subarrayFrom (encodePacket s2 t2 b2).2
      (((10 + b2.length : Nat) : Int) + 4) = [] := by
    rw [show ((10 + b2.length : Nat) : Int) + 4 = ((14 + b2.length : Nat) : Int) by push_cast; ring]
    rw [subarrayFrom_natCast, List.drop_eq_nil_of_le (by omega)]
  constructor
  · show drainBuffer (fuel + 3) ([] ++ ((encodePacket s1 t1 b1).2 ++ (encodePacket s2 t2 b2).2)) = _
    rw [List.nil_append, show fuel + 3 = (fuel + 2) + 1 from rfl, drainBuffer_step _ _ _ hdec1]
    simp only [hsub1]
    rw [show fuel + 2 = (fuel + 1) + 1 from rfl, drainBuffer_step _ _ _ hdec2]
    simp only [hsub2]
    rw [drainBuffer_stop _ _ (by simp [decodePacket])]
  · rw [hPlen1]
    push_cast
    ring

theorem C3_multi_packet_stream_witness :
    handleData [] ((encodePacket 0 2 "a").2 ++ (encodePacket 1 0 "b").2) 3 =
      ([{ size := ((10 + "a".length : Nat) : Int), id := ((0 + 1 : Nat) : Int),
          type := ((2 : Nat) : Int), body := "a",
          totalLength := ((10 + "a".length : Nat) : Int) + 4 },
        { size := ((10 + "b".length : Nat) : Int), id := ((1 + 1 : Nat) : Int),
          type := ((0 : Nat) : Int), body := "b",
          totalLength := ((10 + "b".length : Nat) : Int) + 4 }], []) ∧
    (((encodePacket 0 2 "a").2).length : Int) = ((10 + "a".length : Nat) : Int) + 4 :=
  C3_multi_packet_stream 0 0 1 2 0 "a" "b" (by decide) (by decide) (by decide) (by decide)
    (by decide) (by decide) (by decide) (by decide)

/-! ## C9 — id monotonicity -/

/-- The ids produced by successive `encodePacket` calls on one client
instance, threading the `requestId` state; each call may use any type
and body (neither influences the id). -/
def encodeIds (requestId : Nat) : List (Nat × String) → List Nat
  | [] => []
  | c :: calls =>
    let r := encodePacket requestId c.1 c.2
    r.1 :: encodeIds r.1 calls

theorem encodeIds_eq_range (s : Nat) (calls : List (Nat × String)) :
    encodeIds s calls = List.range' (s + 1) calls.length := by
  induction calls generalizing s with
  | nil => rfl
  | cons c calls ih =>
    simp only [encodeIds, encodePacket, ih, List.length_cons]
    rfl

/-- C9: successive `encodePacket` calls on one freshly connected client
(`requestId = 0`) produce exactly the ids `1, 2, …, n` — strictly
increasing and starting at 1. -/
theorem C9_id_monotonic (calls : List (Nat × String)) :
    encodeIds 0 calls = List.range' 1 calls.length ∧
    List.Chain' (· < ·) (encodeIds 0 calls) ∧
    (calls ≠ [] → (encodeIds 0 calls).head? = some 1) := by
  refine ⟨encodeIds_eq_range 0 calls, ?_, ?_⟩
  · rw [encodeIds_eq_range 0 calls]
    exact (List.pairwise_lt_range' 1 calls.length).chain'
  · intro h
    rw [encodeIds_eq_range 0 calls]
    cases calls with
    | nil => exact absurd rfl h
    | cons c cs => rfl

theorem C9_id_monotonic_witness :
    encodeIds 0 [(3, "pw"), (2, "status"), (2, "stats")] = List.range' 1 3 ∧
    List.Chain' (· < ·) (encodeIds 0 [(3, "pw"), (2, "status"), (2, "stats")]) ∧
    (encodeIds 0 [(3, "pw"), (2, "status"), (2, "stats")]).head? = some 1 := by
  have h := C9_id_monotonic [(3, "pw"), (2, "status"), (2, "stats")]
  exact ⟨h.1, h.2.1, h.2.2 (by decide)⟩


/-! ## C2 — auth-failure routing in `handlePacket` -/

/-- The observable effects of `RconClient.handlePacket`: the resolve and
reject callbacks of pending requests, and the `response` event. -/
inductive RconAction where
  | reject (key : Int) (message : String)
  | resolveBool (key : Int) (value : Bool)
  | resolveBody (key : Int) (value : String)
  | emitResponse (packet : RconPacket)
  deriving DecidableEq

/-- The request-correlation state of an `RconClient`: the `authenticated`
flag and the keys of `pendingRequests` in insertion order (a JS `Map`
iterates in insertion order, so the first key is the oldest). -/
structure ClientState where
  authenticated : Bool
  pendingRequests : List Int
  deriving DecidableEq

/-- `RconClient.handlePacket(packet)`: on an AuthResponse with id = -1,
reject the first (oldest) entry of the pending map; otherwise look the
packet id up, delete it and resolve it (an AuthResponse resolves with
`true` and sets `authenticated`, anything else resolves with the body);
always emit the `response` event. -/
def handlePacket (st : ClientState) (packet : RconPacket) :
    ClientState × List RconAction :=
  if packet.type = PacketType.AUTH_RESPONSE ∧ packet.id = -1 then
    match st.pendingRequests with
    | [] => (st, [.emitResponse packet])
    | key :: rest =>
      ({ st with pendingRequests := rest },
        [.reject key "Authentication failed: wrong RCON password",
         .emitResponse packet])
  else
    if st.pendingRequests.contains packet.id then
      if packet.type = PacketType.AUTH_RESPONSE then
        ({ authenticated := true,
           pendingRequests := st.pendingRequests.erase packet.id },
          [.resolveBool packet.id true, .emitResponse packet])
      else
        ({ st with pendingRequests := st.pendingRequests.erase packet.id },
          [.resolveBody packet.id packet.body, .emitResponse packet])
    else (st, [.emitResponse packet])

/-- C2: when the decoded packet has type AuthResponse and id = -1 while
some request is pending, the oldest pending request is rejected with the
authentication-failed error and is removed from the pending table. -/
theorem C2_auth_failure_oldest (st : ClientState) (packet : RconPacket)
    (hty : packet.type = PacketType.AUTH_RESPONSE) (hneg : packet.id = -1)
    (oldest : Int) (rest : List Int)
    (hp : st.pendingRequests = oldest :: rest) :
    handlePacket st packet =
      ({ st with pendingRequests := rest },
       [.reject oldest "Authentication failed: wrong RCON password",
        .emitResponse packet]) := by
  simp [handlePacket, hty, hneg, hp]

theorem C2_auth_failure_oldest_witness :
    handlePacket { authenticated := false, pendingRequests := [1, 2] }
        { size := 10, id := -1, type := 2, body := "", totalLength := 14 } =
      ({ authenticated := false, pendingRequests := [2] },
       [.reject 1 "Authentication failed: wrong RCON password",
        .emitResponse { size := 10, id := -1, type := 2, body := "", totalLength := 14 }]) :=
  C2_auth_failure_oldest { authenticated := false, pendingRequests := [1, 2] }
    { size := 10, id := -1, type := 2, body := "", totalLength := 14 }
    (by decide) (by decide) 1 [2] (by decide)


/-! ## A2S query (C6, C10) -/

/-- `"Source Engine Query\0"` encoded with Node's `binary` (latin1)
encoding: each code unit masked to a byte. -/
def A2S_INFO_PAYLOAD : List Nat :=
  "Source Engine Query\x00".data.map (fun c => c.toNat % 256)

/-- `buildA2SInfoRequest(challenge?)`: `FF FF FF FF 54` + payload, with
the challenge bytes appended when present. -/
def buildA2SInfoRequest (challenge : Option (List Nat)) : List Nat :=
  match challenge with
  | some ch => [0xff, 0xff, 0xff, 0xff] ++ [0x54] ++ A2S_INFO_PAYLOAD ++ ch
  | none => [0xff, 0xff, 0xff, 0xff] ++ [0x54] ++ A2S_INFO_PAYLOAD

/-- `readString(buf, offset)`: bytes up to the next NUL (string fields
are modelled by their byte contents); a missing terminator yields an
empty value with the cursor at the end of the buffer. -/
def a2sReadString (buf : List Nat) (off : Nat) : List Nat × Nat :=
  match (buf.drop off).findIdx? (· = 0) with
  | none => ([], buf.length)
  | some j => ((buf.drop off).take j, off + j + 1)

/-- `buf.readUInt8(off)`: fails (Node throws a range error) when the
offset is out of bounds. -/
def readUInt8Checked (buf : List Nat) (off : Nat) : Option Nat :=
  if off < buf.length then some (byteAt buf off) else none

/-- `buf.readUInt16LE(off)`, bounds-checked like `readUInt8`. -/
def readUInt16Checked (buf : List Nat) (off : Nat) : Option Nat :=
  if off + 2 ≤ buf.length then some (byteAt buf off + 256 * byteAt buf (off + 1))
  else none

/-- `A2SInfoResponse`, with string fields carried as their bytes and the
one-character `serverType` / `environment` fields as their byte. -/
structure A2SInfoResponse where
  protocol : Nat
  hostname : List Nat
  map : List Nat
  folder : List Nat
  game : List Nat
  appId : Nat
  players : Nat
  maxPlayers : Nat
  bots : Nat
  serverType : Nat
  environment : Nat
  visibility : Bool
  vac : Bool
  version : List Nat
  deriving DecidableEq

/-- `parseA2SInfoResponse(buf)`: sequential cursor-based reads starting
after the 4-byte header and 1-byte type; `none` models the range error
Node throws on a fixed-field read past the end. -/
def parseA2SInfoResponse (buf : List Nat) : Option A2SInfoResponse := do
  let protocol ← readUInt8Checked buf 5
  let hostname := a2sReadString buf 6
  let mapField := a2sReadString buf hostname.2
  let folder := a2sReadString buf mapField.2
  let game := a2sReadString buf folder.2
  let appId ← readUInt16Checked buf game.2
  let players ← readUInt8Checked buf (game.2 + 2)
  let maxPlayers ← readUInt8Checked buf (game.2 + 3)
  let bots ← readUInt8Checked buf (game.2 + 4)
  let serverType ← readUInt8Checked buf (game.2 + 5)
  let environment ← readUInt8Checked buf (game.2 + 6)
  let visibility ← readUInt8Checked buf (game.2 + 7)
  let vac ← readUInt8Checked buf (game.2 + 8)
  let version := a2sReadString buf (game.2 + 9)
  some { protocol := protocol, hostname := hostname.1, map := mapField.1,
         folder := folder.1, game := game.1, appId := appId, players := players,
         maxPlayers := maxPlayers, bots := bots, serverType := serverType,
         environment := environment, visibility := visibility = 1,
         vac := vac = 1, version := version.1 }

/-- The external stimuli `queryA2SInfo`'s socket handlers react to. -/
inductive A2SEvent where
  | message (msg : List Nat)
  | sockError
  | timerFired
  deriving DecidableEq

/-- The observable effects of `queryA2SInfo`: UDP sends, promise
settlement (resolve / the three reject paths) and socket closing. -/
inductive A2SAction where
  | send (packet : List Nat)
  | resolve (info : A2SInfoResponse)
  | rejectTimeout
  | rejectSocketError
  | rejectParseError
  | closeSocket
  deriving DecidableEq

/-- Whether an action settles the promise. -/
def A2SAction.isSettle : A2SAction → Bool
  | .resolve _ => true
  | .rejectTimeout => true
  | .rejectSocketError => true
  | .rejectParseError => true
  | _ => false

/-- One event handled by `queryA2SInfo`'s closures, as a transition of
the `settled` flag emitting a list of actions.  Mirrors the timer, the
`error` handler and the `message` handler (`< 5` bytes ignored; type
0x41 re-sends with the challenge from bytes 5..9 without settling; type
0x49 settles with the parse result; anything else is ignored). -/
def stepA2S (settled : Bool) (e : A2SEvent) : Bool × List A2SAction :=
  match e with
  | .timerFired =>
    if settled then (settled, [])
    else (true, [.closeSocket, .rejectTimeout])
  | .sockError =>
    if settled then (settled, [])
    else (true, [.closeSocket, .rejectSocketError])
  | .message msg =>
    if msg.length < 5 then (settled, [])
    else
      let ty := byteAt msg 4
      if ty = 0x41 then
        if msg.length < 9 then (settled, [])
        else (settled, [.send (buildA2SInfoRequest (some ((msg.drop 5).take 4)))])
      else if ty = 0x49 then
        if settled then (settled, [])
        else
          match parseA2SInfoResponse msg with
          | some info => (true, [.closeSocket, .resolve info])
          | none => (true, [.closeSocket, .rejectParseError])
      else (settled, [])

/-- Fold `stepA2S` over a sequence of events, accumulating the actions. -/
def runA2S (settled : Bool) : List A2SEvent → Bool × List A2SAction
  | [] => (settled, [])
  | e :: es =>
    let r := stepA2S settled e
    let rest := runA2S r.1 es
    (rest.1, r.2 ++ rest.2)

/-- `queryA2SInfo`: the initial request send followed by the handlers'
reactions to the interleaving of datagrams, socket errors and the
timeout timer. -/
def queryA2SInfoActions (events : List A2SEvent) : List A2SAction :=
  .send (buildA2SInfoRequest none) :: (runA2S false events).2


/-! ## C6 — challenge flow -/

/-- C6: a Challenge reply (`FF FF FF FF 41` + at least 4 challenge
bytes) triggers exactly one retry send — the base request with the four
challenge bytes appended — without settling; a resolve action can only
arise from a message of at least 5 bytes whose type byte is 0x49, never
from a socket error or the timer; and any reply shorter than 5 bytes is
ignored outright (no action, no state change). -/
theorem C6_a2s_challenge_flow :
    (∀ (settled : Bool) (ch : List Nat), 4 ≤ ch.length →
      stepA2S settled (.message ([0xff, 0xff, 0xff, 0xff, 0x41] ++ ch)) =
        (settled, [.send (buildA2SInfoRequest (some (ch.take 4)))])) ∧
    (∀ ch : List Nat,
      buildA2SInfoRequest (some ch) = buildA2SInfoRequest none ++ ch) ∧
    (∀ (settled : Bool) (msg : List Nat) (info : A2SInfoResponse),
      A2SAction.resolve info ∈ (stepA2S settled (.message msg)).2 →
      5 ≤ msg.length ∧ byteAt msg 4 = 0x49) ∧
    (∀ (settled : Bool) (info : A2SInfoResponse),
      A2SAction.resolve info ∉ (stepA2S settled .sockError).2 ∧
      A2SAction.resolve info ∉ (stepA2S settled .timerFired).2) ∧
    (∀ (settled : Bool) (msg : List Nat), msg.length < 5 →
      stepA2S settled (.message msg) = (settled, [])) := by
  refine ⟨?_, ?_, ?_, ?_, ?_⟩
  · intro settled ch hch
    have hlen : ([(0xff : Nat), 0xff, 0xff, 0xff, 0x41] ++ ch).length = 5 + ch.length := by
      simp
      omega
    have hb4 : byteAt ([0xff, 0xff, 0xff, 0xff, 0x41] ++ ch) 4 = 0x41 := by
      simp [byteAt]
    have hdrop : ([(0xff : Nat), 0xff, 0xff, 0xff, 0x41] ++ ch).drop 5 = ch := by
      simp
    simp only [stepA2S, hlen, hb4, hdrop]
    rw [if_neg (by omega), if_pos trivial, if_neg (by omega)]
  · intro ch
    simp [buildA2SInfoRequest]
  · intro settled msg info hmem
    by_cases h5 : msg.length < 5
    · simp [stepA2S, h5] at hmem
    · by_cases h41 : byteAt msg 4 = 0x41
      · by_cases h9 : msg.length < 9 <;>
          simp [stepA2S, h5, h41, h9] at hmem
      · by_cases h49 : byteAt msg 4 = 0x49
        · exact ⟨by omega, h49⟩
        · simp [stepA2S, h5, h41, h49] at hmem
  · intro settled info
    constructor <;> cases settled <;> simp [stepA2S]
  · intro settled msg h5
    simp [stepA2S, h5]

/-- A complete minimal Info reply used to exercise the resolve path. -/
def a2sInfoSample : List Nat :=
  [255, 255, 255, 255, 0x49, 48, 0, 0, 0, 0, 10, 0, 2, 10, 0, 100, 108, 0, 1, 0]

theorem C6_a2s_challenge_flow_witness :
    stepA2S false (.message ([0xff, 0xff, 0xff, 0xff, 0x41] ++ [1, 2, 3, 4])) =
      (false, [.send (buildA2SInfoRequest (some ([1, 2, 3, 4].take 4)))]) ∧
    buildA2SInfoRequest (some [1, 2, 3, 4]) = buildA2SInfoRequest none ++ [1, 2, 3, 4] ∧
    (5 ≤ a2sInfoSample.length ∧ byteAt a2sInfoSample 4 = 0x49) ∧
    (A2SAction.resolve (A2SInfoResponse.mk 48 [] [] [] [] 10 2 10 0 100 108 false true [])
        ∉ (stepA2S false .sockError).2) ∧
    stepA2S true (.message [255, 255]) = (true, []) := by
  refine ⟨C6_a2s_challenge_flow.1 false [1, 2, 3, 4] (by decide),
    C6_a2s_challenge_flow.2.1 [1, 2, 3, 4],
    C6_a2s_challenge_flow.2.2.1 false a2sInfoSample
      (A2SInfoResponse.mk 48 [] [] [] [] 10 2 10 0 100 108 false true []) ?_,
    (C6_a2s_challenge_flow.2.2.2.1 false
      (A2SInfoResponse.mk 48 [] [] [] [] 10 2 10 0 100 108 false true [])).1,
    C6_a2s_challenge_flow.2.2.2.2 true [255, 255] (by decide)⟩
  decide

/-! ## C10 — at-most-once settlement -/

theorem stepA2S_true (e : A2SEvent) :
    (stepA2S true e).1 = true ∧
    (stepA2S true e).2.countP A2SAction.isSettle = 0 := by
  cases e with
  | timerFired => simp [stepA2S]
  | sockError => simp [stepA2S]
  | message msg =>
    by_cases h5 : msg.length < 5
    · simp [stepA2S, h5]
    · by_cases h41 : byteAt msg 4 = 0x41
      · by_cases h9 : msg.length < 9 <;>
          simp [stepA2S, h5, h41, h9, A2SAction.isSettle]
      · by_cases h49 : byteAt msg 4 = 0x49 <;>
          simp [stepA2S, h5, h41, h49]

theorem stepA2S_false_count (e : A2SEvent) :
    (stepA2S false e).2.countP A2SAction.isSettle =
      (if (stepA2S false e).1 then 1 else 0) := by
  cases e with
  | timerFired => simp [stepA2S, A2SAction.isSettle]
  | sockError => simp [stepA2S, A2SAction.isSettle]
  | message msg =>
    by_cases h5 : msg.length < 5
    · simp [stepA2S, h5]
    · by_cases h41 : byteAt msg 4 = 0x41
      · by_cases h9 : msg.length < 9 <;>
          simp [stepA2S, h5, h41, h9, A2SAction.isSettle]
      · by_cases h49 : byteAt msg 4 = 0x49
        · cases hp : parseA2SInfoResponse msg <;>
            simp [stepA2S, h5, h41, h49, hp, A2SAction.isSettle]
        · simp [stepA2S, h5, h41, h49]

theorem runA2S_true (es : List A2SEvent) :
    (runA2S true es).1 = true ∧
    (runA2S true es).2.countP A2SAction.isSettle = 0 := by
  induction es with
  | nil => simp [runA2S]
  | cons e es ih =>
    have h := stepA2S_true e
    simp only [runA2S, List.countP_append]
    rw [h.1]
    exact ⟨ih.1, by rw [h.2, ih.2]⟩

theorem runA2S_false_count (es : List A2SEvent) :
    (runA2S false es).2.countP A2SAction.isSettle =
      (if (runA2S false es).1 then 1 else 0) := by
  induction es with
  | nil => simp [runA2S]
  | cons e es ih =>
    simp only [runA2S, List.countP_append]
    have hcnt := stepA2S_false_count e
    by_cases hs : (stepA2S false e).1 = true
    · have hrun := runA2S_true es
      rw [hs] at hcnt
      simp only [if_pos rfl] at hcnt
      simp only [hs, hrun.1, hrun.2, if_pos rfl]
      omega
    · rw [Bool.not_eq_true] at hs
      rw [hs] at hcnt
      simp only [Bool.false_eq_true, if_false] at hcnt
      simp only [hs, hcnt, ih]
      omega

theorem runA2S_timer_settled (es : List A2SEvent) (s : Bool)
    (h : A2SEvent.timerFired ∈ es) : (runA2S s es).1 = true := by
  induction es generalizing s with
  | nil => cases h
  | cons e es ih =>
    simp only [runA2S]
    rcases List.mem_cons.mp h with he | he
    · subst he
      cases s with
      | true =>
        have hst := stepA2S_true A2SEvent.timerFired
        simp only [hst.1]
        exact (runA2S_true es).1
      | false =>
        have hstep : (stepA2S false A2SEvent.timerFired).1 = true := by
          simp [stepA2S]
        simp only [hstep]
        exact (runA2S_true es).1
    · exact ih _ he

/-- C10: over every interleaving of datagrams, socket errors and the
timeout timer, `queryA2SInfo` settles its promise at most once — and
exactly once as soon as the timer is among the events; nothing arriving
after the first settlement triggers a second resolution or rejection. -/
theorem C10_settle_at_most_once (events : List A2SEvent) :
    (queryA2SInfoActions events).countP A2SAction.isSettle ≤ 1 ∧
    (A2SEvent.timerFired ∈ events →
      (queryA2SInfoActions events).countP A2SAction.isSettle = 1) := by
  have hq : (queryA2SInfoActions events).countP A2SAction.isSettle =
      (runA2S false events).2.countP A2SAction.isSettle := by
    simp [queryA2SInfoActions, List.countP_cons, A2SAction.isSettle]
  constructor
  · rw [hq, runA2S_false_count]
    split <;> omega
  · intro h
    rw [hq, runA2S_false_count]
    simp [runA2S_timer_settled events false h]

theorem C10_settle_at_most_once_witness :
    (queryA2SInfoActions [.message a2sInfoSample, .timerFired,
        .sockError]).countP A2SAction.isSettle ≤ 1 ∧
    (queryA2SInfoActions [.message a2sInfoSample, .timerFired,
        .sockError]).countP A2SAction.isSettle = 1 := by
  have h := C10_settle_at_most_once [.message a2sInfoSample, .timerFired, .sockError]
  exact ⟨h.1, h.2 (by decide)⟩


/-! ## Log line parsing (C7, C8) -/

/-- A regular expression over characters, covering what the log parser's
patterns use: literals, character classes, sequencing, ordered
alternation, greedy/lazy repetition and numbered capture groups. -/
inductive RE where
  | eps : RE
  | lit : Char → RE
  | cls : (Char → Bool) → RE
  | seq : RE → RE → RE
  | alt : RE → RE → RE
  | star : Bool → RE → RE
  | group : Nat → RE → RE

/-- Node count, used to provision matching fuel. -/
def RE.size : RE → Nat
  | .eps => 1
  | .lit _ => 1
  | .cls _ => 1
  | .seq a b => a.size + b.size + 1
  | .alt a b => a.size + b.size + 1
  | .star _ a => a.size + 1
  | .group _ a => a.size + 1

/-- Backtracking matcher in continuation-passing style with JS regex
semantics: `alt` prefers its left branch, a greedy `star` (flag `false`)
tries the longer match first, a lazy one (flag `true`) the shorter, and
a closing `group` records the consumed slice (most recent first).
`fuel` bounds the call depth; `reMatchTop` supplies fuel that far
exceeds what the patterns in use can consume, since every quantified
subterm of every pattern consumes at least one character. -/
def reMatch {α : Type} : Nat → RE → List Char → List (Nat × List Char) →
    (List Char → List (Nat × List Char) → Option α) → Option α
  | 0, _, _, _, _ => none
  | _ + 1, .eps, s, caps, k => k s caps
  | _ + 1, .lit c, s, caps, k =>
    match s with
    | [] => none
    | c' :: rest => if c' = c then k rest caps else none
  | _ + 1, .cls p, s, caps, k =>
    match s with
    | [] => none
    | c' :: rest => if p c' then k rest caps else none
  | fuel + 1, .seq a b, s, caps, k =>
    reMatch fuel a s caps (fun s' caps' => reMatch fuel b s' caps' k)
  | fuel + 1, .alt a b, s, caps, k =>
    match reMatch fuel a s caps k with
    | some r => some r
    | none => reMatch fuel b s caps k
  | fuel + 1, .star lazyFlag a, s, caps, k =>
    if lazyFlag then
      match k s caps with
      | some r => some r
      | none => reMatch fuel a s caps
          (fun s' caps' => reMatch fuel (.star lazyFlag a) s' caps' k)
    else
      match reMatch fuel a s caps
          (fun s' caps' => reMatch fuel (.star lazyFlag a) s' caps' k) with
      | some r => some r
      | none => k s caps
  | fuel + 1, .group n a, s, caps, k =>
    reMatch fuel a s caps
      (fun s' caps' => k s' ((n, s.take (s.length - s'.length)) :: caps'))

/-- Match anchored at the start of `s` (the `^` case). -/
def reMatchTop (r : RE) (s : List Char) : Option (List (Nat × List Char)) :=
  reMatch ((s.length + 2) * (r.size + 2)) r s [] (fun _ caps => some caps)

/-- `String.match` / `RegExp.test` without an anchor: try the pattern at
each successive start position, leftmost match first. -/
def reSearch (r : RE) (s : List Char) : Option (List (Nat × List Char)) :=
  match reMatchTop r s with
  | some caps => some caps
  | none =>
    match s with
    | [] => none
    | _ :: rest => reSearch r rest

/-- The slice captured by group `n`, as a string (`""` when the group
did not participate), taking the most recently recorded completion. -/
def capStr (caps : List (Nat × List Char)) (n : Nat) : String :=
  match caps.find? (fun c => c.1 = n) with
  | some c => String.mk c.2
  | none => ""

/-- The slice captured by group `n`, as characters. -/
def capList (caps : List (Nat × List Char)) (n : Nat) : List Char :=
  match caps.find? (fun c => c.1 = n) with
  | some c => c.2
  | none => []

/-- JS `\d`. -/
def jsDigit (c : Char) : Bool := '0' ≤ c && c ≤ '9'

/-- JS `\s` (the members that can occur in these logs). -/
def jsSpace (c : Char) : Bool :=
  c = ' ' || c = '\t' || c = '\n' || c = '\r' ||
  c = Char.ofNat 0x0b || c = Char.ofNat 0x0c || c = Char.ofNat 0xa0 ||
  c = Char.ofNat 0xfeff

/-- JS `.` without the `s` flag: anything but a line terminator. -/
def jsDot (c : Char) : Bool :=
  !(c = '\n' || c = '\r' || c = Char.ofNat 0x2028 || c = Char.ofNat 0x2029)

/-- JS `.` under the `s` (dotAll) flag. -/
def jsDotAll (_ : Char) : Bool := true

/-- A literal string as a regex. -/
def reStr (s : String) : RE := s.data.foldr (fun c acc => RE.seq (.lit c) acc) .eps

/-- Greedy `+`. -/
def rePlusG (r : RE) : RE := .seq r (.star false r)

/-- Lazy `+?`. -/
def rePlusL (r : RE) : RE := .seq r (.star true r)

/-- `{n}`. -/
def reRep : Nat → RE → RE
  | 0, _ => .eps
  | n + 1, r => .seq r (reRep n r)

/-- Sequence a list of regexes. -/
def reSeqList (l : List RE) : RE := l.foldr RE.seq .eps

/-- `^L\s+(\d{2}\/\d{2}\/\d{4}\s+-\s+\d{2}:\d{2}:\d{2}):\s*(.*)` with the
`s` flag (`TIMESTAMP_RE`). -/
def TIMESTAMP_RE : RE :=
  reSeqList [.lit 'L', rePlusG (.cls jsSpace),
    .group 1 (reSeqList [reRep 2 (.cls jsDigit), .lit '/', reRep 2 (.cls jsDigit), .lit '/',
      reRep 4 (.cls jsDigit), rePlusG (.cls jsSpace), .lit '-', rePlusG (.cls jsSpace),
      reRep 2 (.cls jsDigit), .lit ':', reRep 2 (.cls jsDigit), .lit ':',
      reRep 2 (.cls jsDigit)]),
    .lit ':', .star false (.cls jsSpace), .group 2 (.star false (.cls jsDotAll))]

/-- `killed\s+".*?"\s+.*?with\s+"` (`KILL_GUARD_RE`). -/
def KILL_GUARD_RE : RE :=
  reSeqList [reStr "killed", rePlusG (.cls jsSpace), .lit '"', .star true (.cls jsDot),
    .lit '"', rePlusG (.cls jsSpace), .star true (.cls jsDot), reStr "with",
    rePlusG (.cls jsSpace), .lit '"']

/-- `"(.+?)<\d+><.+?><(.+?)>".*killed\s+"(.+?)<\d+><.+?><(.+?)>".*with\s+"(.+?)"`
(`KILL_RE`). -/
def KILL_RE : RE :=
  reSeqList [.lit '"', .group 1 (rePlusL (.cls jsDot)), .lit '<', rePlusG (.cls jsDigit),
    .lit '>', .lit '<', rePlusL (.cls jsDot), .lit '>', .lit '<',
    .group 2 (rePlusL (.cls jsDot)), .lit '>', .lit '"', .star false (.cls jsDot),
    reStr "killed", rePlusG (.cls jsSpace),
    .lit '"', .group 3 (rePlusL (.cls jsDot)), .lit '<', rePlusG (.cls jsDigit),
    .lit '>', .lit '<', rePlusL (.cls jsDot), .lit '>', .lit '<',
    .group 4 (rePlusL (.cls jsDot)), .lit '>', .lit '"', .star false (.cls jsDot),
    reStr "with", rePlusG (.cls jsSpace), .lit '"', .group 5 (rePlusL (.cls jsDot)), .lit '"']

/-- `\(headshot\)` (`HEADSHOT_RE`). -/
def HEADSHOT_RE : RE := reStr "(headshot)"

/-- `"(.+?)<\d+><.+?><(.*?)>"\s+(say_team|say)\s+"(.*)"` (`CHAT_RE`). -/
def CHAT_RE : RE :=
  reSeqList [.lit '"', .group 1 (rePlusL (.cls jsDot)), .lit '<', rePlusG (.cls jsDigit),
    .lit '>', .lit '<', rePlusL (.cls jsDot), .lit '>', .lit '<',
    .group 2 (.star true (.cls jsDot)), .lit '>', .lit '"', rePlusG (.cls jsSpace),
    .group 3 (.alt (reStr "say_team") (reStr "say")), rePlusG (.cls jsSpace),
    .lit '"', .group 4 (.star false (.cls jsDot)), .lit '"']

/-- `"(.+?)<(\d+)><(.+?)><.*>"\s+connected,\s+address\s+"(.+?)"` (`CONNECT_RE`). -/
def CONNECT_RE : RE :=
  reSeqList [.lit '"', .group 1 (rePlusL (.cls jsDot)), .lit '<',
    .group 2 (rePlusG (.cls jsDigit)), .lit '>', .lit '<', .group 3 (rePlusL (.cls jsDot)),
    .lit '>', .lit '<', .star false (.cls jsDot), .lit '>', .lit '"',
    rePlusG (.cls jsSpace), reStr "connected,", rePlusG (.cls jsSpace), reStr "address",
    rePlusG (.cls jsSpace), .lit '"', .group 4 (rePlusL (.cls jsDot)), .lit '"']

/-- `"(.+?)<(\d+)><(.+?)><.*>"\s+entered the game` (`ENTER_RE`). -/
def ENTER_RE : RE :=
  reSeqList [.lit '"', .group 1 (rePlusL (.cls jsDot)), .lit '<',
    .group 2 (rePlusG (.cls jsDigit)), .lit '>', .lit '<', .group 3 (rePlusL (.cls jsDot)),
    .lit '>', .lit '<', .star false (.cls jsDot), .lit '>', .lit '"',
    rePlusG (.cls jsSpace), reStr "entered the game"]

/-- `"(.+?)<(\d+)><(.+?)><.*>"\s+disconnected\s*\(reason\s+"(.+?)"\)`
(`DISCONNECT_RE`). -/
def DISCONNECT_RE : RE :=
  reSeqList [.lit '"', .group 1 (rePlusL (.cls jsDot)), .lit '<',
    .group 2 (rePlusG (.cls jsDigit)), .lit '>', .lit '<', .group 3 (rePlusL (.cls jsDot)),
    .lit '>', .lit '<', .star false (.cls jsDot), .lit '>', .lit '"',
    rePlusG (.cls jsSpace), reStr "disconnected", .star false (.cls jsSpace), .lit '(',
    reStr "reason", rePlusG (.cls jsSpace), .lit '"', .group 4 (rePlusL (.cls jsDot)),
    .lit '"', .lit ')']

/-- `World triggered "Round_Start"` (`ROUND_START_RE`). -/
def ROUND_START_RE : RE := reStr "World triggered \"Round_Start\""

/-- `World triggered "Round_End"` (`ROUND_END_RE`). -/
def ROUND_END_RE : RE := reStr "World triggered \"Round_End\""

/-- `Team "(.+?)"\s+triggered\s+"(.+?)"` (`TEAM_WIN_RE`). -/
def TEAM_WIN_RE : RE :=
  reSeqList [reStr "Team \"", .group 1 (rePlusL (.cls jsDot)), .lit '"',
    rePlusG (.cls jsSpace), reStr "triggered", rePlusG (.cls jsSpace), .lit '"',
    .group 2 (rePlusL (.cls jsDot)), .lit '"']

/-- JS `String.prototype.trim` on a character list. -/
def jsTrimList (l : List Char) : List Char :=
  ((l.dropWhile jsSpace).reverse.dropWhile jsSpace).reverse

/-- JS `String.prototype.trim`. -/
def jsTrim (s : String) : String := String.mk (jsTrimList s.data)

/-- `LogEvent` (shared/index.ts): `category` is one of the string
literals `kill`, `chat`, `connection`, `disconnection`, `round`,
`other`. -/
structure LogEvent where
  timestamp : String
  category : String
  message : String
  raw : String
  deriving DecidableEq, Repr

/-- The timestamp-extraction step of `parseLogLine`: group 1 is the
timestamp, group 2 the line body; with no match the timestamp is empty
and the whole (trimmed) line is the body. -/
def timestampSplit (trimmed : List Char) : String × List Char :=
  match reMatchTop TIMESTAMP_RE trimmed with
  | some caps => (capStr caps 1, capList caps 2)
  | none => ("", trimmed)

/-- The kill step: guard test, full pattern, optional headshot suffix. -/
def matchKill (timestamp trimmed : String) (body : List Char) : Option LogEvent :=
  if (reSearch KILL_GUARD_RE body).isSome then
    (reSearch KILL_RE body).map (fun caps =>
      let hs := if (reSearch HEADSHOT_RE body).isSome then " (headshot)" else ""
      { timestamp := timestamp, category := "kill",
        message := capStr caps 1 ++ " [" ++ capStr caps 2 ++ "] killed " ++
          capStr caps 3 ++ " [" ++ capStr caps 4 ++ "] with " ++ capStr caps 5 ++ hs,
        raw := trimmed })
  else none

/-- The chat step: `say_team` gets a `[TEAM]` prefix, a non-empty team a
`[team]` tag. -/
def matchChat (timestamp trimmed : String) (body : List Char) : Option LogEvent :=
  (reSearch CHAT_RE body).map (fun caps =>
    let pre := if capStr caps 3 = "say_team" then "[TEAM] " else ""
    let teamTag := if capList caps 2 ≠ [] then " [" ++ capStr caps 2 ++ "]" else ""
    { timestamp := timestamp, category := "chat",
      message := pre ++ capStr caps 1 ++ teamTag ++ ": " ++ capStr caps 4,
      raw := trimmed })

/-- The connection step (`connected, address` shape). -/
def matchConnect (timestamp trimmed : String) (body : List Char) : Option LogEvent :=
  (reSearch CONNECT_RE body).map (fun caps =>
    { timestamp := timestamp, category := "connection",
      message := capStr caps 1 ++ " connected (" ++ capStr caps 3 ++ ") from " ++
        capStr caps 4,
      raw := trimmed })

/-- The connection step (`entered the game` shape). -/
def matchEnter (timestamp trimmed : String) (body : List Char) : Option LogEvent :=
  (reSearch ENTER_RE body).map (fun caps =>
    { timestamp := timestamp, category := "connection",
      message := capStr caps 1 ++ " entered the game", raw := trimmed })

/-- The disconnection step. -/
def matchDisconnect (timestamp trimmed : String) (body : List Char) : Option LogEvent :=
  (reSearch DISCONNECT_RE body).map (fun caps =>
    { timestamp := timestamp, category := "disconnection",
      message := capStr caps 1 ++ " disconnected (" ++ capStr caps 4 ++ ")",
      raw := trimmed })

/-- The round-start step. -/
def matchRoundStart (timestamp trimmed : String) (body : List Char) : Option LogEvent :=
  if (reSearch ROUND_START_RE body).isSome then
    some { timestamp := timestamp, category := "round", message := "Round started",
           raw := trimmed }
  else none

/-- The round-end step. -/
def matchRoundEnd (timestamp trimmed : String) (body : List Char) : Option LogEvent :=
  if (reSearch ROUND_END_RE body).isSome then
    some { timestamp := timestamp, category := "round", message := "Round ended",
           raw := trimmed }
  else none

/-- The team-win step. -/
def matchTeamWin (timestamp trimmed : String) (body : List Char) : Option LogEvent :=
  (reSearch TEAM_WIN_RE body).map (fun caps =>
    { timestamp := timestamp, category := "round",
      message := capStr caps 1 ++ ": " ++ capStr caps 2, raw := trimmed })

/-- `parseLogLine(raw)`: trim, split off the timestamp, then try the
pattern matchers in source order with the first match winning; the
fallback is category `other` carrying the post-timestamp remainder
verbatim. -/
def parseLogLine (raw : String) : LogEvent :=
  let trimmed := jsTrim raw
  let p := timestampSplit trimmed.data
  (matchKill p.1 trimmed p.2 <|> matchChat p.1 trimmed p.2 <|>
   matchConnect p.1 trimmed p.2 <|> matchEnter p.1 trimmed p.2 <|>
   matchDisconnect p.1 trimmed p.2 <|> matchRoundStart p.1 trimmed p.2 <|>
   matchRoundEnd p.1 trimmed p.2 <|> matchTeamWin p.1 trimmed p.2).getD
    { timestamp := p.1, category := "other", message := String.mk p.2, raw := trimmed }


/-! ## C7 — log classification -/

/-- C7: the matchers are tried in source order with the first match
winning; the spec's chat example renders `A [CT]: hi`, its round example
renders `Round started`, and any line no matcher recognises is
classified `other` carrying the post-timestamp remainder verbatim. -/
theorem C7_log_classification :
    parseLogLine "L 03/01/2024 - 12:34:56: \"A<2><S><CT>\" say \"hi\"" =
      { timestamp := "03/01/2024 - 12:34:56", category := "chat",
        message := "A [CT]: hi",
        raw := "L 03/01/2024 - 12:34:56: \"A<2><S><CT>\" say \"hi\"" } ∧
    parseLogLine "L 03/01/2024 - 12:34:56: World triggered \"Round_Start\"" =
      { timestamp := "03/01/2024 - 12:34:56", category := "round",
        message := "Round started",
        raw := "L 03/01/2024 - 12:34:56: World triggered \"Round_Start\"" } ∧
    (∀ raw : String,
      matchKill (timestampSplit (jsTrim raw).data).1 (jsTrim raw)
        (timestampSplit (jsTrim raw).data).2 = none →
      matchChat (timestampSplit (jsTrim raw).data).1 (jsTrim raw)
        (timestampSplit (jsTrim raw).data).2 = none →
      matchConnect (timestampSplit (jsTrim raw).data).1 (jsTrim raw)
        (timestampSplit (jsTrim raw).data).2 = none →
      matchEnter (timestampSplit (jsTrim raw).data).1 (jsTrim raw)
        (timestampSplit (jsTrim raw).data).2 = none →
      matchDisconnect (timestampSplit (jsTrim raw).data).1 (jsTrim raw)
        (timestampSplit (jsTrim raw).data).2 = none →
      matchRoundStart (timestampSplit (jsTrim raw).data).1 (jsTrim raw)
        (timestampSplit (jsTrim raw).data).2 = none →
      matchRoundEnd (timestampSplit (jsTrim raw).data).1 (jsTrim raw)
        (timestampSplit (jsTrim raw).data).2 = none →
      matchTeamWin (timestampSplit (jsTrim raw).data).1 (jsTrim raw)
        (timestampSplit (jsTrim raw).data).2 = none →
      parseLogLine raw =
        { timestamp := (timestampSplit (jsTrim raw).data).1, category := "other",
          message := String.mk (timestampSplit (jsTrim raw).data).2,
          raw := jsTrim raw }) := by
  refine ⟨by decide, by decide, ?_⟩
  intro raw h1 h2 h3 h4 h5 h6 h7 h8
  simp only [parseLogLine, h1, h2, h3, h4, h5, h6, h7, h8, Option.none_orElse,
    Option.getD_none]

theorem C7_log_classification_witness :
    parseLogLine "L 03/01/2024 - 12:34:56: \"A<2><S><CT>\" say \"hi\"" =
      { timestamp := "03/01/2024 - 12:34:56", category := "chat",
        message := "A [CT]: hi",
        raw := "L 03/01/2024 - 12:34:56: \"A<2><S><CT>\" say \"hi\"" } ∧
    parseLogLine "server cvars start" =
      { timestamp := (timestampSplit (jsTrim "server cvars start").data).1,
        category := "other",
        message := String.mk (timestampSplit (jsTrim "server cvars start").data).2,
        raw := jsTrim "server cvars start" } :=
  ⟨C7_log_classification.1,
   C7_log_classification.2.2 "server cvars start" (by decide) (by decide) (by decide)
     (by decide) (by decide) (by decide) (by decide) (by decide)⟩


/-! ## C8 — log receiver -/

/-- `LogMessage` (log-receiver.ts). -/
structure LogMessage where
  sourceIp : String
  sourcePort : Nat
  event : LogEvent
  deriving DecidableEq

/-- `buf.toString("utf8")`, modelled byte-by-byte — faithful for the
ASCII payloads that log datagrams carry (no claim exercises multi-byte
sequences). -/
def utf8ToChars (l : List Nat) : List Char := l.map (fun b => Char.ofNat (b % 256))

/-- The OOB-header-stripping step of `LogReceiver.handleMessage`: after
`FF FF FF FF`, a literal ascii `log` advances the cursor by 3 and an
optional NUL terminator by one more; any other payload is assumed to
carry an 8-byte header; datagrams without the `FF FF FF FF` prefix pass
through whole. -/
def stripLogHeader (buf : List Nat) : List Nat :=
  if 4 < buf.length ∧ byteAt buf 0 = 0xff ∧ byteAt buf 1 = 0xff ∧
      byteAt buf 2 = 0xff ∧ byteAt buf 3 = 0xff then
    let offset : Nat :=
      if 7 < buf.length ∧ asciiSlice buf 4 7 = "log" then
        if 7 < buf.length ∧ byteAt buf 7 = 0 then 8 else 7
      else 8
    buf.drop (min offset buf.length)
  else buf

/-- JS `text.split("\n")`. -/
def splitNl : List Char → List (List Char)
  | [] => [[]]
  | c :: rest =>
    match splitNl rest with
    | [] => [[]]
    | h :: t => if c = '\n' then [] :: h :: t else (c :: h) :: t

/-- `LogReceiver.handleMessage(buf, rinfo)`: strip the transport header,
split the text on newlines, keep the lines that are non-empty after
trimming, and emit one `LogMessage` per kept line. -/
def handleMessage (buf : List Nat) (sourceIp : String) (sourcePort : Nat) :
    List LogMessage :=
  let text := utf8ToChars (stripLogHeader buf)
  let lines := (splitNl text).filter (fun l => decide (0 < (jsTrimList l).length))
  lines.map (fun line =>
    { sourceIp := sourceIp, sourcePort := sourcePort,
      event := parseLogLine (String.mk line) })

theorem splitNl_no_newline (l : List Char) (h : '\n' ∉ l) : splitNl l = [l] := by
  induction l with
  | nil => rfl
  | cons c rest ih =>
    have hc : c ≠ '\n' := fun hx => h (hx ▸ List.mem_cons_self c rest)
    have hr : '\n' ∉ rest := fun hx => h (List.mem_cons_of_mem c hx)
    simp only [splitNl, ih hr]
    rw [if_neg hc]

theorem char_toNat_ofNat (m : Nat) (h : m < 55296) : (Char.ofNat m).toNat = m := by
  unfold Char.ofNat Char.toNat
  split
  · rfl
  · next hn =>
    exfalso
    apply hn
    constructor
    omega

theorem jsTrimList_eq_nil_iff (l : List Char) :
    jsTrimList l = [] ↔ ∀ c ∈ l, jsSpace c := by
  unfold jsTrimList
  rw [List.reverse_eq_nil_iff, List.dropWhile_eq_nil_iff]
  constructor
  · intro h c hc
    by_cases hmem : c ∈ l.dropWhile jsSpace
    · exact h c (List.mem_reverse.mpr hmem)
    · have hsplit := List.takeWhile_append_dropWhile (p := jsSpace) (l := l)
      rw [← hsplit] at hc
      rcases List.mem_append.mp hc with htk | hdw
      · exact List.mem_takeWhile_imp htk
      · exact absurd hdw hmem
  · intro h c hc
    exact h c ((List.dropWhile_sublist _).subset (List.mem_reverse.mp hc))

theorem list_any_map {α β : Type} (f : α → β) (l : List α) (p : β → Bool) :
    (l.map f).any p = l.any (fun a => p (f a)) := by
  induction l with
  | nil => rfl
  | cons a l ih => simp [List.any_cons, ih]

theorem jsTrimList_filter_eq (l : List Char) :
    decide (0 < (jsTrimList l).length) = l.any (fun c => ! jsSpace c) := by
  rcases h : l.any (fun c => ! jsSpace c) with _ | _
  · have hall : ∀ c ∈ l, jsSpace c := by
      intro c hc
      have := List.any_eq_false.mp h c hc
      simpa using this
    have hnil : jsTrimList l = [] := (jsTrimList_eq_nil_iff l).mpr hall
    simp [hnil]
  · obtain ⟨c, hc, hns⟩ := List.any_eq_true.mp h
    have hne : jsTrimList l ≠ [] := by
      intro hnil
      have := (jsTrimList_eq_nil_iff l).mp hnil c hc
      simp [this] at hns
    simp [List.length_pos, hne]

theorem stripLogHeader_log (line : List Nat) :
    stripLogHeader ([0xff, 0xff, 0xff, 0xff, 0x6c, 0x6f, 0x67, 0x00] ++ line) = line := by
  have hlen : ([(0xff : Nat), 0xff, 0xff, 0xff, 0x6c, 0x6f, 0x67, 0x00] ++ line).length =
      8 + line.length := by
    simp
    omega
  have hslice : asciiSlice ([(0xff : Nat), 0xff, 0xff, 0xff, 0x6c, 0x6f, 0x67, 0x00] ++ line)
      4 7 = "log" := by
    rw [asciiSlice_eq _ 4 7 (by omega) (by omega)]
    rw [show ((4 : Int)).toNat = 4 from rfl, show ((7 : Int)).toNat = 7 from rfl]
    rw [show ([(0xff : Nat), 0xff, 0xff, 0xff, 0x6c, 0x6f, 0x67, 0x00] ++ line) =
        [(0xff : Nat), 0xff, 0xff, 0xff] ++ ([0x6c, 0x6f, 0x67] ++ ([0x00] ++ line)) by simp]
    rw [List.drop_left' (by simp), show (7 : Nat) - 4 = 3 from rfl,
      List.take_left' (by simp)]
    rfl
  simp only [stripLogHeader]
  rw [if_pos ⟨by omega, by simp [byteAt], by simp [byteAt], by simp [byteAt],
    by simp [byteAt]⟩]
  rw [if_pos ⟨by omega, hslice⟩, if_pos ⟨by omega, by simp [byteAt]⟩]
  rw [min_eq_left (by omega)]
  exact List.drop_left' (by simp)

/-- C8 counterexample: the datagram `"a\n \nb"` splits into three
non-empty lines, but the whitespace-only middle line is discarded by the
trim-based filter, so only two notifications are emitted — refuting
"one notification per non-empty line". -/
theorem C8_counterexample :
    ((splitNl (utf8ToChars (stripLogHeader [97, 10, 32, 10, 98]))).filter
        (fun l => decide (l ≠ []))).length = 3 ∧
    (handleMessage [97, 10, 32, 10, 98] "10.0.0.1" 27015).length = 2 := by
  decide

/-- C8 (amended): a datagram of the 8 header bytes
`FF FF FF FF 6C 6F 67 00` followed by one newline-free byte line with at
least one non-whitespace character yields exactly one `LogMessage`,
parsed from the line alone — the header bytes are excluded; in general
the stripped text is split on newlines, lines that are blank after
trimming (not merely empty ones) are discarded, and one notification is
emitted per line containing a non-whitespace character. -/
theorem C8_log_header_stripping (ip : String) (port : Nat) (line : List Nat)
    (hbyte : ∀ b ∈ line, b < 256) (hnl : (10 : Nat) ∉ line)
    (hsub : line.any (fun b => ! jsSpace (Char.ofNat (b % 256))) = true) :
    handleMessage ([0xff, 0xff, 0xff, 0xff, 0x6c, 0x6f, 0x67, 0x00] ++ line) ip port =
      [{ sourceIp := ip, sourcePort := port,
         event := parseLogLine (String.mk (utf8ToChars line)) }] ∧
    (∀ buf : List Nat,
      handleMessage buf ip port =
        ((splitNl (utf8ToChars (stripLogHeader buf))).filter
            (fun l => l.any (fun c => ! jsSpace c))).map (fun l =>
          { sourceIp := ip, sourcePort := port,
            event := parseLogLine (String.mk l) })) := by
  constructor
  · have hnlc : '\n' ∉ utf8ToChars line := by
      intro hmem
      obtain ⟨b, hb, heq⟩ := List.mem_map.mp hmem
      have hv : (Char.ofNat (b % 256)).toNat = b % 256 :=
        char_toNat_ofNat (b % 256) (by omega)
      rw [heq] at hv
      have : b % 256 = 10 := by simpa using hv.symm
      exact hnl (by rwa [Nat.mod_eq_of_lt (hbyte b hb)] at this ▸ hb)
    have hfil : decide (0 < (jsTrimList (utf8ToChars line)).length) = true := by
      rw [jsTrimList_filter_eq, utf8ToChars, list_any_map]
      exact hsub
    simp only [handleMessage, stripLogHeader_log, splitNl_no_newline _ hnlc,
      List.filter_cons, hfil, List.filter_nil, List.map_cons, List.map_nil,
      if_pos trivial]
  · intro buf
    simp only [handleMessage]
    rw [List.filter_congr (fun l _ => jsTrimList_filter_eq l)]

theorem C8_log_header_stripping_witness :
    handleMessage ([0xff, 0xff, 0xff, 0xff, 0x6c, 0x6f, 0x67, 0x00] ++ [104, 105]) "ip" 1 =
      [{ sourceIp := "ip", sourcePort := 1,
         event := parseLogLine (String.mk (utf8ToChars [104, 105])) }] ∧
    handleMessage [104, 105, 10, 32] "ip" 1 =
      ((splitNl (utf8ToChars (stripLogHeader [104, 105, 10, 32]))).filter
          (fun l => l.any (fun c => ! jsSpace c))).map (fun l =>
        { sourceIp := "ip", sourcePort := 1, event := parseLogLine (String.mk l) }) := by
  have h := C8_log_header_stripping "ip" 1 [104, 105] (by decide) (by decide) (by decide)
  exact ⟨h.1, h.2 [104, 105, 10, 32]⟩

end Cs2Rcon
